import Mathlib

/-!
Verification of `salt/utils/jinja.py`: the `SaltCacheLoader` template
resolver and the list/boolean jinja filters, shallowly embedded in Lean.

Paths are modelled as POSIX path strings; the helpers below follow the
CPython `posixpath` implementations of the functions the loader calls
(`normpath`, `dirname`, `join`, `isabs`, `relpath`).
-/

namespace SaltJinja

def splitSlashAux : List Char → List Char → List String
  | [], cur => [String.mk cur.reverse]
  | c :: cs, cur =>
    if c = '/' then String.mk cur.reverse :: splitSlashAux cs []
    else splitSlashAux cs (c :: cur)

/-- `s.split("/")`: split on every slash, keeping empty pieces
(`"".split("/") == [""]`, `"a//b".split("/") == ["a","","b"]`). -/
def splitSlash (s : String) : List String :=
  splitSlashAux s.data []

/-- `template.split("/", 1)[0]`: everything before the first slash. -/
def firstSeg (p : String) : String :=
  (splitSlash p).headD ""

/-- `p.startswith("/")`. -/
def startsWithSlash (p : String) : Bool :=
  match p.data with
  | '/' :: _ => true
  | _ => false

/-- `p.endswith("/")`. -/
def endsWithSlash (p : String) : Bool :=
  match p.data.getLast? with
  | some '/' => true
  | _ => false

/-- `os.path.isabs` on POSIX. -/
def isabs (p : String) : Bool :=
  startsWithSlash p

/-- `posixpath.normpath`'s leading-slash count: 2 for exactly two leading
slashes, otherwise 1 for any other number of leading slashes, 0 for none. -/
def initialSlashCount (path : String) : Nat :=
  match path.data with
  | '/' :: '/' :: '/' :: _ => 1
  | '/' :: '/' :: _ => 2
  | '/' :: _ => 1
  | _ => 0

/-- One step of `posixpath.normpath`'s component loop: the accumulator is
the component stack with its top at the head. -/
def normpathStep (initialSlashes : Nat) (acc : List String) (comp : String) : List String :=
  if comp = "" ∨ comp = "." then acc
  else if comp ≠ ".." ∨ (initialSlashes = 0 ∧ acc = []) ∨ acc.headD "" = ".." then
    comp :: acc
  else if acc ≠ [] then acc.tail
  else acc

/-- `"/".join(comps)`. -/
def joinSlash : List String → String
  | [] => ""
  | [x] => x
  | x :: xs => x ++ "/" ++ joinSlash xs

/-- `posixpath.normpath`. -/
def normpath (path : String) : String :=
  if path = "" then "."
  else
    let initialSlashes := initialSlashCount path
    let comps := splitSlash path
    let newComps := (comps.foldl (normpathStep initialSlashes) []).reverse
    let joined := joinSlash newComps
    let out := String.mk (List.replicate initialSlashes '/') ++ joined
    if out = "" then "." else out

/-- `posixpath.dirname`. -/
def dirname (p : String) : String :=
  let cs := p.data
  match cs.reverse.findIdx? (· = '/') with
  | none => ""
  | some k =>
    let head := cs.take (cs.length - k)
    if head ≠ [] ∧ ¬ head.all (· = '/') then
      String.mk (head.reverse.dropWhile (· = '/')).reverse
    else
      String.mk head

/-- `posixpath.join` restricted to two components, as used by the loader. -/
def pjoin (a b : String) : String :=
  if startsWithSlash b then b
  else if a = "" ∨ endsWithSlash a then a ++ b
  else a ++ "/" ++ b

/-- Length of the longest common prefix of two component lists
(`genericpath.commonprefix` applied to lists). -/
def commonPrefixLen : List String → List String → Nat
  | a :: as, b :: bs => if a = b then commonPrefixLen as bs + 1 else 0
  | _, _ => 0

/-- `posixpath.relpath` for the case where both arguments are absolute
paths — the only case `get_source` exercises (it guards on
`os.path.isabs(base_path)`), where `abspath` reduces to `normpath` and the
process working directory is irrelevant. -/
def relpathAbs (path start : String) : String :=
  let startList := (splitSlash (normpath start)).filter (· ≠ "")
  let pathList := (splitSlash (normpath path)).filter (· ≠ "")
  let i := commonPrefixLen startList pathList
  let relList := List.replicate (startList.length - i) ".." ++ pathList.drop i
  if relList = [] then "." else joinSlash relList

/-- `s.replace(a, b)` for one-character patterns. -/
def replaceChar (s : String) (a b : Char) : String :=
  String.mk (s.data.map fun c => if c = a then b else c)

/-- `s.strip()` (whitespace at both ends). -/
def trimChars (s : String) : String :=
  String.mk (((s.data.dropWhile Char.isWhitespace).reverse.dropWhile Char.isWhitespace).reverse)

/-!
## Python value model for the jinja filters

The filters receive arbitrary Python values. `PyVal` covers the fragment
of Python's data model the filters inspect: `None`, `bool`, `int`,
`float`, `str`, `list`, `tuple` and `set`. A `float` is carried as an
exact rational: no filter below performs any rounding-sensitive float
arithmetic on the inputs the claims exercise. A `set` is represented by
its members in first-insertion order; Python's set iteration order is
implementation-defined, so theorems about set-valued results are claims
about membership, with this canonical order standing in for it.
Structural equality models Python `==` on this fragment as used by the
filters (the scans below only ever compare values of like type).
-/

inductive PyVal where
  | vnone
  | vbool (b : Bool)
  | vint (n : Int)
  | vfloat (q : Rat)
  | vstr (s : String)
  | vlist (xs : List PyVal)
  | vtuple (xs : List PyVal)
  | vset (xs : List PyVal)
deriving Repr

mutual

def PyVal.beq : PyVal → PyVal → Bool
  | .vnone, .vnone => true
  | .vbool a, .vbool b => a == b
  | .vint a, .vint b => a == b
  | .vfloat a, .vfloat b => a == b
  | .vstr a, .vstr b => a == b
  | .vlist a, .vlist b => PyVal.beqList a b
  | .vtuple a, .vtuple b => PyVal.beqList a b
  | .vset a, .vset b => PyVal.beqList a b
  | _, _ => false

def PyVal.beqList : List PyVal → List PyVal → Bool
  | [], [] => true
  | a :: as, b :: bs => PyVal.beq a b && PyVal.beqList as bs
  | _, _ => false

end

mutual

theorem PyVal.beq_iff : ∀ a b : PyVal, PyVal.beq a b = true ↔ a = b
  | a, b => by
    cases a <;> cases b <;>
      simp only [PyVal.beq, beq_iff_eq, PyVal.vbool.injEq, PyVal.vint.injEq,
        PyVal.vfloat.injEq, PyVal.vstr.injEq, PyVal.vlist.injEq,
        PyVal.vtuple.injEq, PyVal.vset.injEq, Bool.false_eq_true,
        false_iff, reduceCtorEq, not_false_eq_true] <;>
      exact PyVal.beqList_iff _ _

theorem PyVal.beqList_iff : ∀ as bs : List PyVal, PyVal.beqList as bs = true ↔ as = bs
  | [], [] => by simp [PyVal.beqList]
  | a :: as, b :: bs => by
    simp [PyVal.beqList, PyVal.beq_iff a b, PyVal.beqList_iff as bs]
  | [], _ :: _ => by simp [PyVal.beqList]
  | _ :: _, [] => by simp [PyVal.beqList]

end

instance : DecidableEq PyVal := fun a b => decidable_of_iff _ (PyVal.beq_iff a b)

/-- Python exception classes raised by the filter fragment. -/
inductive PyErr where
  | typeError
  | valueError
  | zeroDivisionError
deriving Repr, DecidableEq

instance {ε α : Type} [DecidableEq ε] [DecidableEq α] : DecidableEq (Except ε α) := fun a b =>
  match a, b with
  | .ok x, .ok y =>
    if h : x = y then .isTrue (by rw [h]) else .isFalse (fun hh => h (Except.ok.inj hh))
  | .error x, .error y =>
    if h : x = y then .isTrue (by rw [h]) else .isFalse (fun hh => h (Except.error.inj hh))
  | .ok _, .error _ => .isFalse nofun
  | .error _, .ok _ => .isFalse nofun

/-- `isinstance(v, collections.abc.Hashable)`: a type-level check; `list`,
`set` (and `dict`) define `__hash__ = None`, every other modelled type is
hashable. -/
def PyVal.hashable : PyVal → Bool
  | .vlist _ => false
  | .vset _ => false
  | _ => true

/-- `iter(v)` as the list of produced elements; iterating a string yields
its characters as one-character strings. Non-iterables raise `TypeError`. -/
def pyIter : PyVal → Except PyErr (List PyVal)
  | .vlist xs => .ok xs
  | .vtuple xs => .ok xs
  | .vset xs => .ok xs
  | .vstr s => .ok (s.data.map fun c => .vstr (String.mk [c]))
  | _ => .error .typeError

/-- Accumulate elements into a set: each element must be hashable,
duplicates (by `==`) are dropped, first occurrence kept. -/
def mkSetAux (acc : List PyVal) : List PyVal → Except PyErr (List PyVal)
  | [] => .ok acc
  | x :: xs =>
    if x.hashable = false then .error .typeError
    else if x ∈ acc then mkSetAux acc xs
    else mkSetAux (acc ++ [x]) xs

/-- `set(v)`, returning the member list of the resulting set. -/
def pySetElems (v : PyVal) : Except PyErr (List PyVal) := do
  let xs ← pyIter v
  mkSetAux [] xs

/-- Member list of `a | b` on set member lists. -/
def setUnionL (a b : List PyVal) : List PyVal :=
  a ++ b.filter (· ∉ a)

/-- Member list of `a & b` on set member lists. -/
def setInterL (a b : List PyVal) : List PyVal :=
  a.filter (· ∈ b)

/-- Member list of `a - b` on set member lists. -/
def setDiffL (a b : List PyVal) : List PyVal :=
  a.filter (· ∉ b)

/-- Member list of `a ^ b` on set member lists. -/
def setSymmL (a b : List PyVal) : List PyVal :=
  a.filter (· ∉ b) ++ b.filter (· ∉ a)

/-- Numeric view: `bool` and `int` as Python integers. -/
def PyVal.asInt : PyVal → Option Int
  | .vbool b => some (if b then 1 else 0)
  | .vint n => some n
  | _ => none

/-- Numeric view including floats, as exact rationals. -/
def PyVal.asRat : PyVal → Option Rat
  | .vbool b => some (if b then 1 else 0)
  | .vint n => some n
  | .vfloat q => some q
  | _ => none

/-- Python `+`: sequence concatenation for like sequences, numeric
addition for numbers (int-valued unless a float is involved), `TypeError`
otherwise — in particular `set + set` is a `TypeError`. -/
def pyAdd (a b : PyVal) : Except PyErr PyVal :=
  match a, b with
  | .vlist u, .vlist v => .ok (.vlist (u ++ v))
  | .vtuple u, .vtuple v => .ok (.vtuple (u ++ v))
  | .vstr u, .vstr v => .ok (.vstr (u ++ v))
  | a, b =>
    match a.asInt, b.asInt with
    | some x, some y => .ok (.vint (x + y))
    | _, _ =>
      match a.asRat, b.asRat with
      | some x, some y => .ok (.vfloat (x + y))
      | _, _ => .error .typeError

/-- Python `x in c` for the containers the filters scan; set membership
requires a hashable candidate, string membership is substring search. -/
def pyMem (x c : PyVal) : Except PyErr Bool :=
  match c with
  | .vlist xs => .ok (x ∈ xs)
  | .vtuple xs => .ok (x ∈ xs)
  | .vset xs =>
    if x.hashable then .ok (x ∈ xs) else .error .typeError
  | .vstr s =>
    match x with
    | .vstr t => .ok (t = "" ∨ (s.splitOn t).length ≥ 2)
    | _ => .error .typeError
  | _ => .error .typeError

/-- The linear scan of `unique`'s fallback branch:
`ret = []; for value in values: if value not in ret: ret.append(value)`. -/
def scanDedupAux (acc : List PyVal) : List PyVal → List PyVal
  | [] => acc
  | x :: xs => if x ∈ acc then scanDedupAux acc xs else scanDedupAux (acc ++ [x]) xs

def scanDedup (xs : List PyVal) : List PyVal :=
  scanDedupAux [] xs

/-- `unique(values)` (jinja.py lines 553-577): `set(values)` when the
input object is hashable, otherwise an order-preserving linear scan
producing a list. -/
def unique (values : PyVal) : Except PyErr PyVal :=
  if values.hashable then do
    let s ← pySetElems values
    return .vset s
  else do
    let xs ← pyIter values
    return .vlist (scanDedup xs)

/-- `union(lst1, lst2)` (lines 639-657): `set(lst1) | set(lst2)` when both
inputs are hashable, otherwise `unique(lst1 + lst2)`. -/
def union (lst1 lst2 : PyVal) : Except PyErr PyVal :=
  if lst1.hashable && lst2.hashable then do
    let s1 ← pySetElems lst1
    let s2 ← pySetElems lst2
    return .vset (setUnionL s1 s2)
  else do
    let s ← pyAdd lst1 lst2
    unique s

/-- `intersect(lst1, lst2)` (lines 660-678). -/
def intersect (lst1 lst2 : PyVal) : Except PyErr PyVal :=
  if lst1.hashable && lst2.hashable then do
    let s1 ← pySetElems lst1
    let s2 ← pySetElems lst2
    return .vset (setInterL s1 s2)
  else do
    let xs ← pyIter lst1
    let kept ← xs.filterM fun ele => pyMem ele lst2
    unique (.vlist kept)

/-- `difference(lst1, lst2)` (lines 681-699). -/
def difference (lst1 lst2 : PyVal) : Except PyErr PyVal :=
  if lst1.hashable && lst2.hashable then do
    let s1 ← pySetElems lst1
    let s2 ← pySetElems lst2
    return .vset (setDiffL s1 s2)
  else do
    let xs ← pyIter lst1
    let kept ← xs.filterM fun ele => do
      let b ← pyMem ele lst2
      return !b
    unique (.vlist kept)

/-- `symmetric_difference(lst1, lst2)` (lines 702-722). -/
def symmetric_difference (lst1 lst2 : PyVal) : Except PyErr PyVal :=
  if lst1.hashable && lst2.hashable then do
    let s1 ← pySetElems lst1
    let s2 ← pySetElems lst2
    return .vset (setSymmL s1 s2)
  else do
    let u ← union lst1 lst2
    let i ← intersect lst1 lst2
    let us ← pyIter u
    let kept ← us.filterM fun ele => do
      let b ← pyMem ele i
      return !b
    unique (.vlist kept)

/-- `sum(xs)`: left fold of Python `+` starting from the int `0`. -/
def pySum (xs : List PyVal) : Except PyErr PyVal :=
  xs.foldlM pyAdd (.vint 0)

/-- Python true division `a / b`: always float-valued on numbers. -/
def pyDiv (a b : PyVal) : Except PyErr PyVal :=
  match a.asRat, b.asRat with
  | some x, some y =>
    if y = 0 then .error .zeroDivisionError else .ok (.vfloat (x / y))
  | _, _ => .error .typeError

def digitsVal (cs : List Char) : Nat :=
  cs.foldl (fun a c => a * 10 + (c.toNat - 48)) 0

/-- `float(s)` on optionally signed decimal literals (surrounding
whitespace stripped); the other literal forms Python accepts (exponents,
`inf`, `nan`, underscores) are outside the fragment the filters are
exercised on here and parse as `none` (→ `ValueError`). -/
def parseFloat (s : String) : Option Rat :=
  let t := trimChars s
  let (sign, cs) : Rat × List Char :=
    match t.data with
    | '-' :: rest => (-1, rest)
    | '+' :: rest => (1, rest)
    | cs => (1, cs)
  let intPart := cs.takeWhile (· ≠ '.')
  match cs.dropWhile (· ≠ '.') with
  | [] =>
    if intPart ≠ [] ∧ intPart.all Char.isDigit then
      some (sign * (digitsVal intPart : Rat))
    else none
  | '.' :: frac =>
    if (intPart ++ frac) ≠ [] ∧ intPart.all Char.isDigit ∧ frac.all Char.isDigit
        ∧ frac.all (· ≠ '.') then
      some (sign * ((digitsVal intPart : Rat) + (digitsVal frac : Rat) / 10 ^ frac.length))
    else none
  | _ => none

/-- Python `float(v)`: numbers convert, strings parse as float literals
(`ValueError` otherwise), everything else is a `TypeError`. -/
def pyFloat : PyVal → Except PyErr PyVal
  | .vbool b => .ok (.vfloat (if b then 1 else 0))
  | .vint n => .ok (.vfloat n)
  | .vfloat q => .ok (.vfloat q)
  | .vstr s =>
    match parseFloat s with
    | some q => .ok (.vfloat q)
    | none => .error .valueError
  | _ => .error .typeError

/-- `len(v)` for sized values. -/
def pyLen : PyVal → Except PyErr Nat
  | .vlist xs => .ok xs.length
  | .vtuple xs => .ok xs.length
  | .vset xs => .ok xs.length
  | .vstr s => .ok s.length
  | _ => .error .typeError

/-- `lst_avg(lst)` (lines 618-636): for an unhashable input (list/set),
`float(sum(lst) / len(lst))`; for a hashable input, `float(lst)`. -/
def lst_avg (lst : PyVal) : Except PyErr PyVal :=
  if lst.hashable = false then do
    let xs ← pyIter lst
    let s ← pySum xs
    let q ← pyDiv s (.vint xs.length)
    pyFloat q
  else
    pyFloat lst

def lowerChar (c : Char) : Char :=
  if 'A' ≤ c ∧ c ≤ 'Z' then Char.ofNat (c.toNat + 32) else c

/-- `str.lower()` on the ASCII fragment (Python's full Unicode case
mapping agrees with this on ASCII, which is all `to_bool` compares
against). -/
def pyLower (s : String) : String :=
  String.mk (s.data.map lowerChar)

/-- `to_bool(val)` (lines 334-359): the cascade of `isinstance` checks in
source order — `None`, `bool`, `str`, `int`, unhashable container
(`len > 0`), fallthrough `False`. -/
def to_bool (val : PyVal) : Except PyErr PyVal :=
  match val with
  | .vnone => .ok (.vbool false)
  | .vbool b => .ok (.vbool b)
  | .vstr s => .ok (.vbool (pyLower s = "yes" ∨ pyLower s = "1" ∨ pyLower s = "true"))
  | .vint n => .ok (.vbool (0 < n))
  | v =>
    if v.hashable = false then do
      let l ← pyLen v
      return .vbool (0 < l)
    else
      .ok (.vbool false)

/-!
## The `SaltCacheLoader` template resolver

State and collaborators. The filesystem is a map from path strings to
file data (decoded lazily through a caller-supplied `decode` function
standing in for `bytes.decode(self.encoding)`); the fetch collaborator's
`get_file` is an oracle `fetch : String → Bool` keyed by the logical
template path (`salt.utils.url.create` is outside the sources under
verification; per the spec's fetch-collaborator contract it maps the
logical path injectively to a `salt://` URL, so keying the oracle by the
logical path itself is equivalent). `true` models any non-`False` return.
-/

structure FileData where
  bytes : List Nat
  mtime : Int
deriving Repr, DecidableEq

structure FS where
  files : String → Option FileData

/-- The slice of `environment.globals` the loader reads and writes. -/
structure EnvGlobals where
  tpldir : Option String
  tplfile : Option String
  tpldot : Option String
  /-- `environment.globals.get("opts", {}).get("file_client")`. -/
  opts_file_client : Option String
deriving Repr, DecidableEq

/-- The slice of a file-client object the loader inspects: whether it has
an `opts` attribute, its `opts["file_roots"]`, and whether it exposes a
`destroy` method. -/
structure FileClient where
  hasOpts : Bool
  file_roots : List String
  hasDestroy : Bool
deriving Repr, DecidableEq

/-- The slice of the salt `opts` dictionary `__init__`/`file_client` read. -/
structure Opts where
  cachedir : String
  file_roots : List String
  pillar_roots : List (String × List String)
deriving Repr, DecidableEq

structure Loader where
  opts : Opts
  saltenv : String
  encoding : String
  pillar_rend : Bool
  searchpath : List String
  cached : List String
  _file_client : Option FileClient
  _close_file_client : Bool
deriving Repr, DecidableEq

/-- `SaltCacheLoader.__init__` (lines 59-81). -/
def SaltCacheLoader.init (opts : Opts) (saltenv : String) (encoding : String)
    (pillar_rend : Bool) (fc : Option FileClient) : Loader :=
  let searchpath :=
    if pillar_rend then
      match opts.pillar_roots.lookup saltenv with
      | none => []
      | some roots => roots
    else [pjoin (pjoin opts.cachedir "files") saltenv]
  { opts := opts, saltenv := saltenv, encoding := encoding,
    pillar_rend := pillar_rend, searchpath := searchpath, cached := [],
    _file_client := fc, _close_file_client := fc.isNone }

/-- `file_client()` (lines 83-101): reuse the stored client unless it is
missing, lacks `opts`, or its `file_roots` diverge from the loader's;
`newClient` stands for the fresh client `salt.fileclient.get_file_client`
would return. -/
def file_client (L : Loader) (newClient : FileClient) : FileClient × Loader :=
  match L._file_client with
  | none =>
    (newClient, { L with _file_client := some newClient, _close_file_client := true })
  | some fc =>
    if ¬ fc.hasOpts ∨ fc.file_roots ≠ L.opts.file_roots then
      (newClient, { L with _file_client := some newClient, _close_file_client := true })
    else
      (fc, L)

/-- Side effects observed during one resolution. -/
structure Effects where
  /-- logical paths passed to the fetch collaborator (`get_file`). -/
  fetches : List String
  /-- concrete file paths on which an open was attempted. -/
  reads : List String
deriving Repr, DecidableEq

/-- `cache_file(template)` (lines 103-109): acquire the file client and
invoke its `get_file` on the logical path. Returns the fetch outcome. -/
def cache_file (L : Loader) (fetch : String → Bool) (newClient : FileClient)
    (template : String) : Bool × Loader × Effects :=
  (fetch template, (file_client L newClient).2,
   { fetches := [template], reads := [] })

/-- `check_cache(template)` (lines 111-118): fetch only when the path is
not yet recorded, and record it only when the fetch did not fail. -/
def check_cache (L : Loader) (fetch : String → Bool) (newClient : FileClient)
    (template : String) : Loader × Effects :=
  if template ∈ L.cached then (L, { fetches := [], reads := [] })
  else if (cache_file L fetch newClient template).1 then
    ({ (cache_file L fetch newClient template).2.1 with
        cached := (cache_file L fetch newClient template).2.1.cached ++ [template] },
     (cache_file L fetch newClient template).2.2)
  else
    ((cache_file L fetch newClient template).2.1,
     (cache_file L fetch newClient template).2.2)

/-- `template.split("/", 1)[0] in ("..", ".")` (lines 133-136). -/
def is_relative (template : String) : Bool :=
  firstSeg template = ".." || firstSeg template = "."

/-- The `tpldir` the resolution can see: `None` when there is no
environment or its globals lack the key. -/
def tpldirOf (env : Option EnvGlobals) : Option String :=
  env.bind (·.tpldir)

/-- Lines 132-160 of `get_source`: relative-name resolution. `none` means
`raise TemplateNotFound(template)`; otherwise the resolved logical path.
Mirrors, in order: the missing-environment check, the join-and-normalize
step, the `..`-escape check, and the local-file-client absolute-base
re-relativization. -/
def resolve_relative (env : Option EnvGlobals) (template : String) : Option String :=
  if is_relative template then
    match env with
    | none => none
    | some g =>
      match g.tpldir with
      | none => none
      | some base_path =>
        let t := normpath (base_path ++ "/" ++ template)
        if firstSeg t = ".." then none
        else if g.opts_file_client = some "local" ∧ isabs base_path then
          some (relpathAbs t base_path)
        else some t
  else some template

/-- Lines 164-175: the `tpldata` write-back into `environment.globals`. -/
def updateGlobals (g : EnvGlobals) (template resolved : String) : EnvGlobals :=
  let tpldir0 := replaceChar (dirname resolved) '\\' '/'
  let tpldir := if is_relative template then g.tpldir.getD tpldir0 else tpldir0
  let tplfile := if is_relative template then template else resolved
  { g with
    tplfile := some tplfile,
    tpldir := some (if tpldir = "" then "." else tpldir),
    tpldot := some (replaceChar tpldir '/' '.') }

structure GetSourceOk where
  contents : String
  filepath : String
  mtime : Int
deriving Repr, DecidableEq

/-- Lines 179-196: try each search root in order; the first root whose
joined path opens (and yields a modification time) wins, a failed open
(`OSError`) moves on to the next root. Also returns every path an open
was attempted on. -/
def tryRead (fs : FS) (decode : String → List Nat → String) (encoding : String)
    (sps : List String) (t : String) : Option GetSourceOk × List String :=
  match sps with
  | [] => (none, [])
  | spath :: rest =>
    match fs.files (pjoin spath t) with
    | some fd =>
      (some { contents := decode encoding fd.bytes, filepath := pjoin spath t,
              mtime := fd.mtime }, [pjoin spath t])
    | none =>
      ((tryRead fs decode encoding rest t).1,
       pjoin spath t :: (tryRead fs decode encoding rest t).2)

/-- The `uptodate` closure (lines 186-190), as a function of the
filesystem at the instant it is called: `os.path.getmtime(filepath) ==
mtime`, with an `OSError` (file gone) yielding `False`. -/
def uptodate (filepath : String) (mtime : Int) (fsNow : FS) : Bool :=
  match fsNow.files filepath with
  | some fd => fd.mtime = mtime
  | none => false

inductive Jerr where
  | templateNotFound (name : String)
deriving Repr, DecidableEq

structure GSResult where
  result : Except Jerr GetSourceOk
  loader : Loader
  env : Option EnvGlobals
  effects : Effects

/-- `get_source(environment, template)` (lines 120-199). -/
def get_source (L : Loader) (fetch : String → Bool) (newClient : FileClient)
    (fs : FS) (decode : String → List Nat → String)
    (env : Option EnvGlobals) (template : String) : GSResult :=
  match resolve_relative env template with
  | none =>
    { result := .error (.templateNotFound template), loader := L, env := env,
      effects := { fetches := [], reads := [] } }
  | some t =>
    let cc := check_cache L fetch newClient t
    let env1 : Option EnvGlobals :=
      match env with
      | some g => if template ≠ "" then some (updateGlobals g template t) else some g
      | none => none
    if t ∈ cc.1.cached ∨ (fs.files t).isSome then
      let tr := tryRead fs decode L.encoding cc.1.searchpath t
      match tr.1 with
      | some ok =>
        { result := .ok ok, loader := cc.1, env := env1,
          effects := { fetches := cc.2.fetches, reads := tr.2 } }
      | none =>
        { result := .error (.templateNotFound template), loader := cc.1, env := env1,
          effects := { fetches := cc.2.fetches, reads := tr.2 } }
    else
      { result := .error (.templateNotFound template), loader := cc.1, env := env1,
        effects := cc.2 }

/-- `file_client.destroy()` as seen through `getattr`: clients lacking the
method raise `AttributeError`. -/
def teardownClient (fc : FileClient) : Except String Unit :=
  if fc.hasDestroy then .ok () else .error "AttributeError"

/-- `destroy()` (lines 201-213): a no-op unless this loader owns its
client; tears the owned client down, swallowing the `AttributeError` of
clients with no `destroy`. Returns the new state and the list of clients
actually torn down. -/
def destroy (L : Loader) : Loader × List FileClient :=
  if L._close_file_client = false then (L, [])
  else
    match L._file_client with
    | none => (L, [])
    | some fc =>
      let L1 := { L with _file_client := none }
      match teardownClient fc with
      | .ok _ => (L1, [fc])
      | .error _ => (L1, [])

/-- `__enter__` (lines 215-217): acquire the file client. -/
def enterLoader (L : Loader) (newClient : FileClient) : Loader :=
  (file_client L newClient).2

/-- `__exit__(*args)` (lines 219-220): release, whatever the exit
arguments (exception triple or not) were. -/
def exitLoader (excInfo : Option String) (L : Loader) : Loader × List FileClient :=
  destroy L

/-- A sequence of `get_source` calls against one loader instance,
threading the loader state and collecting each call's effects. -/
def runCalls (fetch : String → Bool) (newClient : FileClient) (fs : FS)
    (decode : String → List Nat → String) :
    Loader → List (Option EnvGlobals × String) → Loader × List Effects
  | L, [] => (L, [])
  | L, (env, t) :: rest =>
    ((runCalls fetch newClient fs decode
        (get_source L fetch newClient fs decode env t).loader rest).1,
     (get_source L fetch newClient fs decode env t).effects
       :: (runCalls fetch newClient fs decode
            (get_source L fetch newClient fs decode env t).loader rest).2)

/-- Number of fetch-collaborator invocations for logical path `p` across
a list of per-call effects. -/
def countFetches (p : String) (effs : List Effects) : Nat :=
  ((effs.map (·.fetches)).flatten).count p

/-- The failure condition of claim C4, read off the claim's three clauses:
a relative name without ambient caller directory; a normalized relative
path escaping the root; or — for the path the name resolves to — neither
recorded cache membership (recorded previously or by this call's
successful fetch) nor local existence, or no search root yielding a
readable file. -/
def notFoundCond (L : Loader) (fetch : String → Bool) (fs : FS)
    (env : Option EnvGlobals) (template : String) : Bool :=
  ((is_relative template && (tpldirOf env).isNone)
    || (is_relative template &&
         (match tpldirOf env with
          | some base => firstSeg (normpath (base ++ "/" ++ template)) = ".."
          | none => false)))
  || (match resolve_relative env template with
      | some t =>
        !(t ∈ L.cached || fetch t || (fs.files t).isSome)
        || L.searchpath.all fun sp => (fs.files (pjoin sp t)).isNone
      | none => false)

/-!
## Concrete fixtures

Small closed instances used to witness the theorems below on explicit
inputs.
-/

def testOpts : Opts :=
  { cachedir := "c", file_roots := ["r"], pillar_roots := [] }

/-- A loader as built for the non-pillar rendering path:
search path `["c/files/base"]`, empty fetch-cache, no injected client. -/
def L0 : Loader :=
  SaltCacheLoader.init testOpts "base" "utf-8" false none

/-- A well-formed fresh file client (has `opts`, matching roots, has
`destroy`). -/
def fclA : FileClient :=
  { hasOpts := true, file_roots := ["r"], hasDestroy := true }

/-- A client with no `destroy` method (`PillarClient`/`LocalClient`). -/
def fclNoTd : FileClient :=
  { hasOpts := true, file_roots := ["r"], hasDestroy := false }

def fsEmpty : FS := ⟨fun _ => none⟩

/-- One template materialized in the minion cache under the search root. -/
def fsOne : FS :=
  ⟨fun p => if p = "c/files/base/x" then some { bytes := [104], mtime := 5 } else none⟩

/-- A decode stand-in: byte 104 ('h') decodes to "h". -/
def decFix : String → List Nat → String :=
  fun _ bs => if bs = [104] then "h" else "?"

/-- Ambient globals carrying a caller directory `a`. -/
def gA : EnvGlobals :=
  { tpldir := some "a", tplfile := none, tpldot := none, opts_file_client := none }

end SaltJinja

namespace SaltJinja

/-!
## Theorems
-/

/-- C8 counterexample: the claim says `union({1,2},{2,3})` yields
`{1,2,3}`, but Python `set` objects are unhashable, so `union` takes the
fallback branch and evaluates `lst1 + lst2`, which raises `TypeError` for
two sets — the call fails instead of returning `{1,2,3}`. -/
theorem C8_counterexample :
    union (.vset [.vint 1, .vint 2]) (.vset [.vint 2, .vint 3]) = .error .typeError := by
  decide

/-- C8 (amended): `unique`, `union`, `intersect`, `difference` and
`symmetric_difference` use set semantics when both input *objects* are
hashable (e.g. tuples) and order-preserving linear scans when they are
not (e.g. lists); `unique([1,2,1,3,2]) = [1,2,3]` order-preserving,
`union` of lists `[1,2]` and `[2,3]` has elements `{1,2,3}` (and of
tuples `(1,2)`, `(2,3)` is the set `{1,2,3}`), `intersect([1,2,3],[2,3,4])`
yields `[2,3]`, `difference([1,2,3,4],[2,4])` yields `[1,3]` — but passing
two Python `set` objects to `union` raises `TypeError` rather than
falling back to a scan. -/
theorem C8_set_filters :
    unique (.vlist [.vint 1, .vint 2, .vint 1, .vint 3, .vint 2])
      = .ok (.vlist [.vint 1, .vint 2, .vint 3])
    ∧ union (.vlist [.vint 1, .vint 2]) (.vlist [.vint 2, .vint 3])
      = .ok (.vlist [.vint 1, .vint 2, .vint 3])
    ∧ union (.vtuple [.vint 1, .vint 2]) (.vtuple [.vint 2, .vint 3])
      = .ok (.vset [.vint 1, .vint 2, .vint 3])
    ∧ intersect (.vlist [.vint 1, .vint 2, .vint 3]) (.vlist [.vint 2, .vint 3, .vint 4])
      = .ok (.vlist [.vint 2, .vint 3])
    ∧ difference (.vlist [.vint 1, .vint 2, .vint 3, .vint 4]) (.vlist [.vint 2, .vint 4])
      = .ok (.vlist [.vint 1, .vint 3])
    ∧ symmetric_difference (.vlist [.vint 1, .vint 2, .vint 3, .vint 4])
        (.vlist [.vint 2, .vint 4, .vint 6])
      = .ok (.vlist [.vint 1, .vint 3, .vint 6]) := by
  decide

/-- C9 counterexample: the claim says a sequence averages and a
non-sequence single value passes through unchanged; but a tuple — a
sequence — is hashable, so `lst_avg((1,2))` runs `float((1,2))` and
raises `TypeError` instead of returning the mean `1.5`, and a scalar
`5` comes back as the float `5.0`, not the original int unchanged. -/
theorem C9_counterexample :
    lst_avg (.vtuple [.vint 1, .vint 2]) = .error .typeError
    ∧ lst_avg (.vint 5) = .ok (.vfloat 5)
    ∧ PyVal.vfloat 5 ≠ PyVal.vint 5 := by
  decide

/-- C9 (amended): `lst_avg` branches on hashability, not sequence-ness:
for an unhashable input (a list) it returns the arithmetic mean as a
float; a hashable input — tuple or scalar alike — is passed to `float()`,
so an int scalar comes back as its float value (and non-convertible
hashables raise). -/
theorem C9_lst_avg (ns : List Int) (n : Int) (hne : ns ≠ []) :
    lst_avg (.vlist (ns.map .vint)) = .ok (.vfloat ((ns.sum : Rat) / (ns.length : Rat)))
    ∧ lst_avg (.vint n) = .ok (.vfloat (n : Rat)) := by
  constructor
  · have hsum : ∀ (ms : List Int) (acc : Int),
        List.foldlM pyAdd (PyVal.vint acc) (ms.map PyVal.vint)
          = .ok (.vint (acc + ms.sum)) := by
      intro ms
      induction ms with
      | nil =>
        intro acc
        show Except.ok (PyVal.vint acc) = Except.ok (PyVal.vint (acc + ([] : List Int).sum))
        rw [List.sum_nil, add_zero]
      | cons m ms ih =>
        intro acc
        have h1 : List.foldlM pyAdd (PyVal.vint acc) ((m :: ms).map PyVal.vint)
            = List.foldlM pyAdd (PyVal.vint (acc + m)) (ms.map PyVal.vint) := rfl
        rw [h1, ih (acc + m), List.sum_cons, add_assoc]
    have h2 : lst_avg (.vlist (ns.map .vint))
        = (pySum (ns.map .vint) >>= fun s =>
            pyDiv s (.vint (ns.map PyVal.vint).length) >>= pyFloat) := rfl
    have h3 : pySum (ns.map PyVal.vint) = .ok (.vint (0 + ns.sum)) := hsum ns 0
    have hlenNat : ns.length ≠ 0 := by
      simpa using hne
    have h5 : pyDiv (.vint (0 + ns.sum)) (.vint (ns.map PyVal.vint).length)
        = .ok (.vfloat (((0 + ns.sum : Int) : Rat)
            / (((ns.map PyVal.vint).length : Int) : Rat))) := by
      simp [pyDiv, PyVal.asRat, hne]
    rw [h2, h3]
    have h6 : ((Except.ok (PyVal.vint (0 + ns.sum)) : Except PyErr PyVal) >>= fun s =>
        pyDiv s (.vint (ns.map PyVal.vint).length) >>= pyFloat)
        = pyDiv (.vint (0 + ns.sum)) (.vint (ns.map PyVal.vint).length) >>= pyFloat := rfl
    rw [h6, h5]
    show Except.ok (PyVal.vfloat _) = Except.ok (PyVal.vfloat _)
    rw [zero_add, List.length_map]
    push_cast
    rfl
  · rfl

/-- C9 witness: the amended average theorem at `[1,2,3,4]` (mean `2.5`)
and scalar `7`. -/
theorem C9_witness :
    (([1, 2, 3, 4] : List Int) ≠ [])
    ∧ (lst_avg (.vlist (([1, 2, 3, 4] : List Int).map .vint))
        = .ok (.vfloat ((([1, 2, 3, 4] : List Int).sum : Rat)
            / ((([1, 2, 3, 4] : List Int).length : Nat) : Rat)))
      ∧ lst_avg (.vint 7) = .ok (.vfloat (7 : Rat))) :=
  ⟨by decide, C9_lst_avg [1, 2, 3, 4] 7 (by decide)⟩

/-- C10 counterexample: the claim says every positive number coerces to
true and every non-empty container to true; but a positive float
(`1.5`) is hashable and not an `int`, so `to_bool` falls through to
`False`, and a non-empty tuple is likewise hashable, also yielding
`False`. -/
theorem C10_counterexample :
    to_bool (.vfloat (3 / 2)) = .ok (.vbool false)
    ∧ to_bool (.vtuple [.vint 1]) = .ok (.vbool false) := by
  decide

/-- C10 (amended): `to_bool` is true for the strings "yes"/"1"/"true"
case-insensitively and for positive *integers*; floats (of any sign) and
tuples (even non-empty) are hashable non-ints and yield false; unhashable
containers (lists, sets) are true exactly when non-empty; `None` is
false. In particular `to_bool("Yes") = true`, `to_bool(0) = false`,
`to_bool([]) = false`, `to_bool([1]) = true`. -/
theorem C10_to_bool (n : Int) (q : Rat) (xs : List PyVal) :
    to_bool (.vstr "Yes") = .ok (.vbool true)
    ∧ to_bool (.vstr "TRUE") = .ok (.vbool true)
    ∧ to_bool (.vstr "no") = .ok (.vbool false)
    ∧ to_bool (.vint 0) = .ok (.vbool false)
    ∧ to_bool (.vlist []) = .ok (.vbool false)
    ∧ to_bool (.vlist [.vint 1]) = .ok (.vbool true)
    ∧ to_bool (.vint n) = .ok (.vbool (0 < n))
    ∧ to_bool (.vfloat q) = .ok (.vbool false)
    ∧ to_bool (.vlist xs) = .ok (.vbool (0 < xs.length))
    ∧ to_bool (.vset xs) = .ok (.vbool (0 < xs.length))
    ∧ to_bool .vnone = .ok (.vbool false) := by
  refine ⟨by decide, by decide, by decide, by decide, by decide, by decide, rfl, rfl, rfl, rfl, rfl⟩

/-- C3 counterexample: resolving `x` succeeds and hands out the
`uptodate` callback capturing `filepath = "c/files/base/x"` and
`mtime = 5`; invoked after the file is deleted, the callback evaluates to
`false`, not `true` as the claim states. -/
theorem C3_counterexample :
    (get_source L0 (fun _ => true) fclA fsOne decFix none "x").result
      = .ok { contents := "h", filepath := "c/files/base/x", mtime := 5 }
    ∧ uptodate "c/files/base/x" 5 fsEmpty = false := by
  decide

/-- C3 (amended): the no-argument callback returned by a successful
`get_source` returns `false` — i.e. reports the content as *not up to
date*, which is how it signals staleness to the engine's caching layer —
whenever reading the file's modification time fails (`OSError`, e.g.
after the backing file is deleted), rather than raising an error. -/
theorem C3_uptodate_on_deletion (L : Loader) (fetch : String → Bool) (nc : FileClient)
    (fs : FS) (dec : String → List Nat → String) (env : Option EnvGlobals)
    (template : String) (out : GetSourceOk) (fsNow : FS)
    (hok : (get_source L fetch nc fs dec env template).result = .ok out)
    (hgone : fsNow.files out.filepath = none) :
    uptodate out.filepath out.mtime fsNow = false := by
  unfold uptodate
  rw [hgone]

/-- C3 witness: the amended theorem applied to the concrete deleted-file
scenario. -/
theorem C3_witness :
    (get_source L0 (fun _ => true) fclA fsOne decFix none "x").result
      = .ok { contents := "h", filepath := "c/files/base/x", mtime := 5 }
    ∧ uptodate "c/files/base/x" 5 fsEmpty = false :=
  ⟨by decide,
   C3_uptodate_on_deletion L0 (fun _ => true) fclA fsOne decFix none "x"
     { contents := "h", filepath := "c/files/base/x", mtime := 5 } fsEmpty
     (by decide) rfl⟩

/-- C6: a loader built around an externally supplied client never tears
it down (`destroy` is a no-op there); a loader that created its own
client (here: on `__enter__`) tears that client down on `destroy`, and a
client with no `destroy` method is swallowed (`AttributeError` → pass)
rather than surfaced; `__enter__` acquires the client and `__exit__`
releases it regardless of the exit arguments. -/
theorem C6_lifecycle (opts : Opts) (se enc : String) (pr : Bool)
    (fcExt : FileClient) (L : Loader) (ncD ncN : FileClient) (info : Option String)
    (hnone : L._file_client = none)
    (hD : ncD.hasDestroy = true) (hN : ncN.hasDestroy = false) :
    destroy (SaltCacheLoader.init opts se enc pr (some fcExt))
      = (SaltCacheLoader.init opts se enc pr (some fcExt), [])
    ∧ (enterLoader L ncD)._file_client = some ncD
    ∧ destroy (enterLoader L ncD)
      = ({ L with _file_client := none, _close_file_client := true }, [ncD])
    ∧ destroy (enterLoader L ncN)
      = ({ L with _file_client := none, _close_file_client := true }, [])
    ∧ exitLoader info L = destroy L := by
  refine ⟨?_, ?_, ?_, ?_, rfl⟩
  · simp [destroy, SaltCacheLoader.init]
  · simp [enterLoader, file_client, hnone]
  · simp [destroy, enterLoader, file_client, hnone, teardownClient, hD]
  · simp [destroy, enterLoader, file_client, hnone, teardownClient, hN]

/-- C6 witness: the lifecycle theorem at a concrete loader and clients. -/
theorem C6_witness :
    L0._file_client = none ∧ fclA.hasDestroy = true ∧ fclNoTd.hasDestroy = false
    ∧ (destroy (SaltCacheLoader.init testOpts "base" "utf-8" false (some fclA))
        = (SaltCacheLoader.init testOpts "base" "utf-8" false (some fclA), [])
      ∧ (enterLoader L0 fclA)._file_client = some fclA
      ∧ destroy (enterLoader L0 fclA)
        = ({ L0 with _file_client := none, _close_file_client := true }, [fclA])
      ∧ destroy (enterLoader L0 fclNoTd)
        = ({ L0 with _file_client := none, _close_file_client := true }, [])
      ∧ exitLoader (some "boom") L0 = destroy L0) :=
  ⟨rfl, rfl, rfl,
   C6_lifecycle testOpts "base" "utf-8" false fclA L0 fclA fclNoTd (some "boom")
     rfl rfl rfl⟩

/-- C1: for a relative template name (first segment `.` or `..`) resolved
against an ambient caller directory, if joining and normalizing yields a
path whose first segment is `..`, `get_source` fails with
`TemplateNotFound(name)` before any fetch or read: the fetch collaborator
is never invoked and no file open is attempted. -/
theorem C1_sandbox_escape (L : Loader) (fetch : String → Bool) (nc : FileClient)
    (fs : FS) (dec : String → List Nat → String) (g : EnvGlobals)
    (base template : String)
    (hrel : is_relative template = true)
    (hdir : g.tpldir = some base)
    (hesc : firstSeg (normpath (base ++ "/" ++ template)) = "..") :
    (get_source L fetch nc fs dec (some g) template).result
      = .error (.templateNotFound template)
    ∧ (get_source L fetch nc fs dec (some g) template).effects.fetches = []
    ∧ (get_source L fetch nc fs dec (some g) template).effects.reads = [] := by
  have hres : resolve_relative (some g) template = none := by
    simp [resolve_relative, hrel, hdir, hesc]
  refine ⟨?_, ?_, ?_⟩ <;> simp [get_source, hres]

/-- C1 witness: `../../x` resolved from caller directory `a` normalizes
to `../x`, escaping the root. -/
theorem C1_witness :
    is_relative "../../x" = true
    ∧ gA.tpldir = some "a"
    ∧ firstSeg (normpath ("a" ++ "/" ++ "../../x")) = ".."
    ∧ ((get_source L0 (fun _ => true) fclA fsOne decFix (some gA) "../../x").result
        = .error (.templateNotFound "../../x")
      ∧ (get_source L0 (fun _ => true) fclA fsOne decFix (some gA) "../../x").effects.fetches = []
      ∧ (get_source L0 (fun _ => true) fclA fsOne decFix (some gA) "../../x").effects.reads = []) :=
  ⟨rfl, rfl, by decide,
   C1_sandbox_escape L0 (fun _ => true) fclA fsOne decFix gA "a" "../../x"
     rfl rfl (by decide)⟩

/-- C7: whenever an environment is supplied (and the name is non-empty,
as the loader contract requires) and the name survives relative
resolution, `get_source` writes `tplfile`, `tpldir` and `tpldot` into the
environment's globals before attempting the read — in particular the
write-back also happens on resolutions that subsequently fail with
`TemplateNotFound` because no search root yields a readable file. -/
theorem C7_context_write_back (L : Loader) (fetch : String → Bool) (nc : FileClient)
    (fs : FS) (dec : String → List Nat → String) (g : EnvGlobals) (template t : String)
    (hne : template ≠ "")
    (hres : resolve_relative (some g) template = some t) :
    (get_source L fetch nc fs dec (some g) template).env
      = some (updateGlobals g template t)
    ∧ (updateGlobals g template t).tplfile.isSome
    ∧ (updateGlobals g template t).tpldir.isSome
    ∧ (updateGlobals g template t).tpldot.isSome := by
  refine ⟨?_, by simp [updateGlobals], by simp [updateGlobals], by simp [updateGlobals]⟩
  simp only [get_source, hres]
  split
  · split <;> simp [hne]
  · simp [hne]

/-- C7 witness: a resolution that fails (empty filesystem, failing fetch)
still rewrites the ambient keys. -/
theorem C7_witness :
    (get_source L0 (fun _ => false) fclA fsEmpty decFix (some gA) "x").result
      = .error (.templateNotFound "x")
    ∧ (get_source L0 (fun _ => false) fclA fsEmpty decFix (some gA) "x").env
      = some (updateGlobals gA "x" "x")
    ∧ updateGlobals gA "x" "x"
      = { tpldir := some ".", tplfile := some "x", tpldot := some "",
          opts_file_client := none } :=
  ⟨by decide,
   (C7_context_write_back L0 (fun _ => false) fclA fsEmpty decFix gA "x" "x"
     (by decide) rfl).1,
   by decide⟩

/-! Helper lemmas about the loader's sub-operations. -/

theorem file_client_state (L : Loader) (nc : FileClient) :
    ((file_client L nc).2).searchpath = L.searchpath
    ∧ ((file_client L nc).2).cached = L.cached
    ∧ ((file_client L nc).2).encoding = L.encoding := by
  unfold file_client
  split
  · exact ⟨rfl, rfl, rfl⟩
  · split
    · exact ⟨rfl, rfl, rfl⟩
    · exact ⟨rfl, rfl, rfl⟩

theorem check_cache_searchpath (L : Loader) (f : String → Bool) (nc : FileClient)
    (t : String) : ((check_cache L f nc t).1).searchpath = L.searchpath := by
  unfold check_cache cache_file
  split
  · rfl
  · split
    · exact (file_client_state L nc).1
    · exact (file_client_state L nc).1

theorem check_cache_mem (L : Loader) (f : String → Bool) (nc : FileClient) (t : String) :
    t ∈ ((check_cache L f nc t).1).cached ↔ (t ∈ L.cached ∨ f t = true) := by
  unfold check_cache cache_file
  split
  · rename_i hin
    simp [hin]
  · rename_i hnin
    split
    · rename_i hf
      simp [(file_client_state L nc).2.1, hnin]
      exact hf
    · rename_i hf
      simp only [Bool.not_eq_true] at hf
      simp [(file_client_state L nc).2.1, hnin, hf]

theorem check_cache_mono (L : Loader) (f : String → Bool) (nc : FileClient)
    (t p : String) (hp : p ∈ L.cached) : p ∈ ((check_cache L f nc t).1).cached := by
  unfold check_cache cache_file
  split
  · exact hp
  · split
    · simp only [(file_client_state L nc).2.1]
      exact List.mem_append_left _ hp
    · simp only [(file_client_state L nc).2.1]
      exact hp

theorem check_cache_fetches (L : Loader) (f : String → Bool) (nc : FileClient)
    (t : String) :
    ((check_cache L f nc t).2).fetches = if t ∈ L.cached then [] else [t] := by
  unfold check_cache cache_file
  split
  · rename_i hin
    simp [hin]
  · rename_i hnin
    split <;> simp [hnin]

theorem tryRead_none_iff (fs : FS) (dec : String → List Nat → String) (enc : String) :
    ∀ (sps : List String) (t : String),
      (tryRead fs dec enc sps t).1 = none ↔ ∀ sp ∈ sps, fs.files (pjoin sp t) = none := by
  intro sps
  induction sps with
  | nil =>
    intro t
    simp [tryRead]
  | cons sp rest ih =>
    intro t
    cases hfd : fs.files (pjoin sp t) with
    | some fd =>
      simp only [tryRead, hfd]
      constructor
      · intro h
        cases h
      · intro h
        have := h sp (by simp)
        rw [hfd] at this
        cases this
    | none =>
      simp only [tryRead, hfd]
      rw [ih t]
      constructor
      · intro h q hq
        rcases List.mem_cons.mp hq with h1 | h2
        · rw [h1]; exact hfd
        · exact h q h2
      · intro h q hq
        exact h q (List.mem_cons_of_mem _ hq)

theorem tryRead_ok (fs : FS) (dec : String → List Nat → String) (enc : String) :
    ∀ (sps : List String) (t : String) (out : GetSourceOk),
      (tryRead fs dec enc sps t).1 = some out →
      ∃ pre sp post fd,
        sps = pre ++ sp :: post
        ∧ (∀ q ∈ pre, fs.files (pjoin q t) = none)
        ∧ fs.files (pjoin sp t) = some fd
        ∧ out = { contents := dec enc fd.bytes, filepath := pjoin sp t,
                  mtime := fd.mtime } := by
  intro sps
  induction sps with
  | nil =>
    intro t out h
    simp [tryRead] at h
  | cons sp rest ih =>
    intro t out h
    cases hfd : fs.files (pjoin sp t) with
    | some fd =>
      simp only [tryRead, hfd] at h
      refine ⟨[], sp, rest, fd, rfl, by simp, hfd, ?_⟩
      exact (Option.some.inj h).symm
    | none =>
      simp only [tryRead, hfd] at h
      obtain ⟨pre, sp2, post, fd, hsps, hpre, hfd2, hout⟩ := ih t out h
      refine ⟨sp :: pre, sp2, post, fd, by rw [hsps]; rfl, ?_, hfd2, hout⟩
      intro q hq
      rcases List.mem_cons.mp hq with h1 | h2
      · rw [h1]; exact hfd
      · exact hpre q h2

/-- C5: a successful `get_source` got past the gate "resolved path is a
recorded cache member or exists locally", tried the configured search
roots in order, and returned the file under the *first* root carrying it:
content decoded through the configured encoding, identity the concrete
joined path, mtime that file's; every earlier root lacks the file. -/
theorem C5_first_root_wins (L : Loader) (fetch : String → Bool) (nc : FileClient)
    (fs : FS) (dec : String → List Nat → String) (env : Option EnvGlobals)
    (template : String) (out : GetSourceOk)
    (hok : (get_source L fetch nc fs dec env template).result = .ok out) :
    ∃ t, resolve_relative env template = some t
      ∧ (t ∈ ((check_cache L fetch nc t).1).cached ∨ (fs.files t).isSome = true)
      ∧ ∃ pre sp post fd,
          L.searchpath = pre ++ sp :: post
          ∧ (∀ q ∈ pre, fs.files (pjoin q t) = none)
          ∧ fs.files (pjoin sp t) = some fd
          ∧ out = { contents := dec L.encoding fd.bytes, filepath := pjoin sp t,
                    mtime := fd.mtime } := by
  cases hres : resolve_relative env template with
  | none =>
    rw [get_source, hres] at hok
    cases hok
  | some t =>
    simp only [get_source, hres] at hok
    split at hok
    · rename_i hcond
      split at hok
      · rename_i ok0 hsome
        have hout : out = ok0 := (Except.ok.inj hok).symm
        rw [check_cache_searchpath] at hsome
        obtain ⟨pre, sp, post, fd, hsps, hpre, hfd, ho⟩ :=
          tryRead_ok fs dec L.encoding L.searchpath t ok0 hsome
        exact ⟨t, rfl, hcond, pre, sp, post, fd, hsps, hpre, hfd, by rw [hout, ho]⟩
      · cases hok
    · cases hok

/-- C5 witness: with the file present under the sole configured root, the
resolution succeeds and the theorem exhibits the winning root. -/
theorem C5_witness :
    (get_source L0 (fun _ => true) fclA fsOne decFix (some gA) "x").result
      = .ok { contents := "h", filepath := "c/files/base/x", mtime := 5 }
    ∧ ∃ t, resolve_relative (some gA) "x" = some t
      ∧ (t ∈ ((check_cache L0 (fun _ => true) fclA t).1).cached
          ∨ (fsOne.files t).isSome = true)
      ∧ ∃ pre sp post fd,
          L0.searchpath = pre ++ sp :: post
          ∧ (∀ q ∈ pre, fsOne.files (pjoin q t) = none)
          ∧ fsOne.files (pjoin sp t) = some fd
          ∧ ({ contents := "h", filepath := "c/files/base/x", mtime := 5 } : GetSourceOk)
              = { contents := decFix L0.encoding fd.bytes, filepath := pjoin sp t,
                  mtime := fd.mtime } :=
  ⟨by decide,
   C5_first_root_wins L0 (fun _ => true) fclA fsOne decFix (some gA) "x"
     { contents := "h", filepath := "c/files/base/x", mtime := 5 } (by decide)⟩

/-- The relative-resolution phase raises exactly under the claim's first
two clauses: relative name without a caller directory, or a normalized
join escaping the root. -/
theorem resolve_relative_none_iff (env : Option EnvGlobals) (template : String) :
    resolve_relative env template = none
    ↔ ((is_relative template && (tpldirOf env).isNone)
        || (is_relative template &&
             (match tpldirOf env with
              | some base => firstSeg (normpath (base ++ "/" ++ template)) = ".."
              | none => false))) = true := by
  cases hrel : is_relative template with
  | false => simp [resolve_relative, hrel]
  | true =>
    cases env with
    | none => simp [resolve_relative, hrel, tpldirOf]
    | some g =>
      cases htd : g.tpldir with
      | none => simp [resolve_relative, hrel, tpldirOf, htd]
      | some base =>
        by_cases hesc : firstSeg (normpath (base ++ "/" ++ template)) = ".."
        · simp [resolve_relative, hrel, tpldirOf, htd, hesc]
        · constructor
          · intro h
            exfalso
            simp only [resolve_relative, hrel, htd] at h
            rw [if_neg hesc] at h
            by_cases hloc : g.opts_file_client = some "local" ∧ isabs base = true
            · rw [if_pos hloc] at h
              cases h
            · rw [if_neg hloc] at h
              cases h
          · intro h
            exfalso
            rw [Bool.or_eq_true] at h
            rcases h with h1 | h2
            · rw [Bool.and_eq_true] at h1
              have h3 := h1.2
              simp [tpldirOf, htd] at h3
            · rw [Bool.and_eq_true] at h2
              have h3 := h2.2
              simp [tpldirOf, htd] at h3
              exact hesc h3

/-- C4: `get_source` fails (raising `TemplateNotFound` carrying the
original name, the only error it ever surfaces) exactly when one of the
claim's clauses holds: (1) relative name with no ambient caller
directory; (2) normalized relative path escaping the root; or (3) the
resolved path is neither a recorded cache member (previously recorded or
recorded by this call's successful fetch) nor an existing local file, or
no configured search root carries a readable copy. -/
theorem C4_notfound_iff (L : Loader) (fetch : String → Bool) (nc : FileClient)
    (fs : FS) (dec : String → List Nat → String) (env : Option EnvGlobals)
    (template : String) :
    ((get_source L fetch nc fs dec env template).result
        = .error (.templateNotFound template)
      ↔ notFoundCond L fetch fs env template = true)
    ∧ (∀ e, (get_source L fetch nc fs dec env template).result = .error e →
        e = .templateNotFound template) := by
  constructor
  · cases hres : resolve_relative env template with
    | none =>
      have hcond : notFoundCond L fetch fs env template = true := by
        unfold notFoundCond
        rw [hres, Bool.or_eq_true]
        exact Or.inl ((resolve_relative_none_iff env template).mp hres)
      simp [get_source, hres, hcond]
    | some t =>
      have hd12 : ((is_relative template && (tpldirOf env).isNone)
          || (is_relative template &&
               (match tpldirOf env with
                | some base => firstSeg (normpath (base ++ "/" ++ template)) = ".."
                | none => false))) = false := by
        rw [← Bool.not_eq_true]
        intro hb
        have hn := (resolve_relative_none_iff env template).mpr hb
        rw [hres] at hn
        cases hn
      have hcond3 : notFoundCond L fetch fs env template
          = (!(t ∈ L.cached || fetch t || (fs.files t).isSome)
              || L.searchpath.all fun sp => (fs.files (pjoin sp t)).isNone) := by
        unfold notFoundCond
        rw [hres, hd12, Bool.false_or]
      have hmem := check_cache_mem L fetch nc t
      have hsp := check_cache_searchpath L fetch nc t
      rw [hcond3]
      simp only [get_source, hres]
      by_cases hA : t ∈ ((check_cache L fetch nc t).1).cached ∨ (fs.files t).isSome = true
      · rw [if_pos hA]
        have hAbool : (t ∈ L.cached || fetch t || (fs.files t).isSome) = true := by
          rcases hA with h1 | h2
          · rcases hmem.mp h1 with h3 | h4
            · simp [h3]
            · simp [h4]
          · simp [h2]
        cases hB : (tryRead fs dec L.encoding ((check_cache L fetch nc t).1).searchpath t).1 with
        | some ok =>
          have hnotall : (L.searchpath.all fun sp => (fs.files (pjoin sp t)).isNone) = false := by
            rw [← Bool.not_eq_true]
            intro hall
            have : (tryRead fs dec L.encoding ((check_cache L fetch nc t).1).searchpath t).1
                = none := by
              rw [hsp, tryRead_none_iff]
              intro sp hspmem
              have := (List.all_eq_true.mp hall) sp (by rw [← hsp]; exact (hsp ▸ hspmem))
              simpa using this
            rw [hB] at this
            cases this
          simp [hB, hAbool, hnotall]
        | none =>
          have hall : (L.searchpath.all fun sp => (fs.files (pjoin sp t)).isNone) = true := by
            rw [hsp] at hB
            rw [tryRead_none_iff] at hB
            rw [List.all_eq_true]
            intro sp hspmem
            simp [hB sp hspmem]
          simp [hB, hall]
      · rw [if_neg hA]
        have hAbool : (t ∈ L.cached || fetch t || (fs.files t).isSome) = false := by
          rw [← Bool.not_eq_true]
          intro hb
          apply hA
          rcases Bool.or_eq_true_iff.mp hb with h1 | h2
          · rcases Bool.or_eq_true_iff.mp h1 with h3 | h4
            · exact Or.inl (hmem.mpr (Or.inl (by simpa using h3)))
            · exact Or.inl (hmem.mpr (Or.inr h4))
          · exact Or.inr h2
        simp [hAbool]
  · intro e he
    cases hres : resolve_relative env template with
    | none =>
      simp only [get_source, hres] at he
      exact (Except.error.inj he).symm
    | some t =>
      simp only [get_source, hres] at he
      split at he
      · split at he
        · cases he
        · exact (Except.error.inj he).symm
      · exact (Except.error.inj he).symm

/-- C4 witness: a plain name, absent everywhere with a failing fetch, is
a `TemplateNotFound` whose condition the iff certifies. -/
theorem C4_witness :
    notFoundCond L0 (fun _ => false) fsEmpty (some gA) "x" = true
    ∧ (get_source L0 (fun _ => false) fclA fsEmpty decFix (some gA) "x").result
      = .error (.templateNotFound "x") :=
  ⟨by decide,
   (C4_notfound_iff L0 (fun _ => false) fclA fsEmpty decFix (some gA) "x").1.mpr
     (by decide)⟩

/-- Shape of one `get_source` call: either it failed in the relative
phase (state untouched, nothing fetched) or its loader state and fetch
list are those of `check_cache` on the resolved path. -/
theorem gs_shape (L : Loader) (fetch : String → Bool) (nc : FileClient) (fs : FS)
    (dec : String → List Nat → String) (env : Option EnvGlobals) (template : String) :
    ((get_source L fetch nc fs dec env template).loader = L
      ∧ (get_source L fetch nc fs dec env template).effects.fetches = [])
    ∨ ∃ t, resolve_relative env template = some t
        ∧ (get_source L fetch nc fs dec env template).loader
            = (check_cache L fetch nc t).1
        ∧ (get_source L fetch nc fs dec env template).effects.fetches
            = (check_cache L fetch nc t).2.fetches := by
  cases hres : resolve_relative env template with
  | none =>
    left
    constructor <;> simp [get_source, hres]
  | some t =>
    right
    refine ⟨t, rfl, ?_, ?_⟩ <;>
      · simp only [get_source, hres]
        split
        · split <;> rfl
        · rfl

theorem gs_count_le (L : Loader) (fetch : String → Bool) (nc : FileClient) (fs : FS)
    (dec : String → List Nat → String) (env : Option EnvGlobals) (template p : String) :
    ((get_source L fetch nc fs dec env template).effects.fetches).count p ≤ 1 := by
  rcases gs_shape L fetch nc fs dec env template with ⟨_, hf⟩ | ⟨t, _, _, hf⟩
  · simp [hf]
  · rw [hf, check_cache_fetches]
    split
    · simp
    · by_cases hpt : p = t
      · simp [hpt]
      · have h0 : ([t] : List String).count p = 0 := by
          rw [List.count_eq_zero]
          intro hm
          exact hpt (List.mem_singleton.mp hm)
        rw [h0]
        exact Nat.zero_le 1

theorem gs_cached_mono (L : Loader) (fetch : String → Bool) (nc : FileClient) (fs : FS)
    (dec : String → List Nat → String) (env : Option EnvGlobals) (template p : String)
    (hp : p ∈ L.cached) :
    p ∈ ((get_source L fetch nc fs dec env template).loader).cached := by
  rcases gs_shape L fetch nc fs dec env template with ⟨hl, _⟩ | ⟨t, _, hl, _⟩
  · rw [hl]; exact hp
  · rw [hl]; exact check_cache_mono L fetch nc t p hp

theorem gs_count_zero_of_cached (L : Loader) (fetch : String → Bool) (nc : FileClient)
    (fs : FS) (dec : String → List Nat → String) (env : Option EnvGlobals)
    (template p : String) (hp : p ∈ L.cached) :
    ((get_source L fetch nc fs dec env template).effects.fetches).count p = 0 := by
  rcases gs_shape L fetch nc fs dec env template with ⟨_, hf⟩ | ⟨t, _, _, hf⟩
  · simp [hf]
  · rw [hf, check_cache_fetches]
    split
    · simp
    · rename_i hnin
      rw [List.count_eq_zero]
      intro hmem
      rw [List.mem_singleton.mp hmem] at hp
      exact hnin hp

theorem gs_fetch_success_cached (L : Loader) (fetch : String → Bool) (nc : FileClient)
    (fs : FS) (dec : String → List Nat → String) (env : Option EnvGlobals)
    (template p : String) (hf : fetch p = true)
    (hpos : 0 < ((get_source L fetch nc fs dec env template).effects.fetches).count p) :
    p ∈ ((get_source L fetch nc fs dec env template).loader).cached := by
  rcases gs_shape L fetch nc fs dec env template with ⟨_, hfe⟩ | ⟨t, _, hl, hfe⟩
  · rw [hfe] at hpos
    simp at hpos
  · rw [hfe, check_cache_fetches] at hpos
    rw [hl]
    split at hpos
    · simp at hpos
    · have hpt : p = t := by
        by_contra hne
        rw [List.count_eq_zero.mpr (by simp [hne])] at hpos
        exact Nat.lt_irrefl 0 hpos
      rw [hpt]
      exact (check_cache_mem L fetch nc t).mpr (Or.inr (hpt ▸ hf))

theorem countFetches_cons (p : String) (e : Effects) (effs : List Effects) :
    countFetches p (e :: effs) = e.fetches.count p + countFetches p effs := by
  simp [countFetches, List.count_append]

/-- Once a path is recorded (or the fetch oracle succeeds for it), later
calls never fetch it again: the per-lifetime count, under a fetch that
succeeds for `p`, never exceeds one, and is zero from any state already
holding `p`. -/
theorem runCalls_count_le (fetch : String → Bool) (nc : FileClient) (fs : FS)
    (dec : String → List Nat → String) (p : String) (hf : fetch p = true) :
    ∀ (calls : List (Option EnvGlobals × String)) (L : Loader),
      countFetches p (runCalls fetch nc fs dec L calls).2 ≤ 1
      ∧ (p ∈ L.cached → countFetches p (runCalls fetch nc fs dec L calls).2 = 0) := by
  intro calls
  induction calls with
  | nil =>
    intro L
    constructor
    · simp [runCalls, countFetches]
    · intro _
      simp [runCalls, countFetches]
  | cons c rest ih =>
    intro L
    obtain ⟨env, t⟩ := c
    have hcons : countFetches p (runCalls fetch nc fs dec L ((env, t) :: rest)).2
        = ((get_source L fetch nc fs dec env t).effects.fetches).count p
          + countFetches p
              (runCalls fetch nc fs dec
                (get_source L fetch nc fs dec env t).loader rest).2 := by
      exact countFetches_cons p _ _
    constructor
    · rcases Nat.eq_zero_or_pos
          (((get_source L fetch nc fs dec env t).effects.fetches).count p) with h0 | hpos
      · rw [hcons, h0, Nat.zero_add]
        exact (ih _).1
      · have hc1 := gs_fetch_success_cached L fetch nc fs dec env t p hf hpos
        rw [hcons, (ih _).2 hc1, Nat.add_zero]
        exact gs_count_le L fetch nc fs dec env t p
    · intro hp
      have h1 := gs_count_zero_of_cached L fetch nc fs dec env t p hp
      have hc1 := gs_cached_mono L fetch nc fs dec env t p hp
      rw [hcons, h1, (ih _).2 hc1]

/-- C2 counterexample: with a fetch collaborator that fails, resolving
the same logical path `x` twice from a fresh loader invokes the
collaborator twice — membership is only recorded on success, so the
second resolution re-fetches, contradicting "at most once ... no matter
how many times". -/
theorem C2_counterexample :
    countFetches "x"
      (runCalls (fun _ => false) fclA fsEmpty decFix L0 [(none, "x"), (none, "x")]).2
      = 2 := by
  decide

/-- C2 (amended): within one loader lifetime, as long as the fetch
collaborator succeeds for a logical path `p`, `p` is fetched at most once
across any sequence of `get_source` calls (the first successful fetch
records membership and every later resolution of `p` skips the fetch);
only *failed* fetches for `p` may be retried by later calls. -/
theorem C2_fetch_once_on_success (L : Loader) (fetch : String → Bool) (nc : FileClient)
    (fs : FS) (dec : String → List Nat → String)
    (calls : List (Option EnvGlobals × String)) (p : String)
    (hf : fetch p = true) :
    countFetches p (runCalls fetch nc fs dec L calls).2 ≤ 1 :=
  (runCalls_count_le fetch nc fs dec p hf calls L).1

/-- C2 witness: two resolutions of `x` under a succeeding fetch invoke
the collaborator at most once. -/
theorem C2_witness :
    ((fun _ => true : String → Bool) "x" = true)
    ∧ countFetches "x"
        (runCalls (fun _ => true) fclA fsEmpty decFix L0 [(none, "x"), (none, "x")]).2
      ≤ 1 :=
  ⟨rfl,
   C2_fetch_once_on_success L0 (fun _ => true) fclA fsEmpty decFix
     [(none, "x"), (none, "x")] "x" rfl⟩

end SaltJinja
